import Mathlib

/-
Verification development for the day2 document Q&A pipeline
(document_processor.py, vector_store_manager.py, doc_qa_agent.py).

Modelling conventions:
* Machine floats are modelled as exact rationals (ℚ); Python ints and
  string lengths as ℕ.
* External services (OpenAI embeddings / chat completions) are modelled as
  explicit function parameters; batch failures of the embedding service
  are modelled by a per-batch failure flag, matching the per-request
  try/except in create_embeddings_batch.
* The FAISS IndexFlatL2 dependency is modelled by exact squared-L2
  exhaustive search; as documented by FAISS, a search asking for more
  results than the index holds pads the label array with -1 and the
  distance array with a float-max sentinel.
* Python stdlib regex splitting (page-marker split, clean_text, sentence
  split) is abstracted as function parameters; all chunker theorems are
  proved for every possible output of those stages.
* Wall-clock timestamps (session start_time, history timestamps) are
  omitted: no claim mentions them.
-/

namespace Day2

/-- Embedding vectors (Python list of floats) as lists of rationals. -/
abbrev Vec := List ℚ

/-- Metadata dict attached to every chunk by DocumentProcessor.chunk_text. -/
structure ChunkMeta where
  source : String
  page : Nat
  chunk_index : Nat
  char_count : Nat
deriving DecidableEq, Repr

/-- The DocumentChunk dataclass of document_processor.py. -/
structure DocumentChunk where
  content : String
  metadata : ChunkMeta
  chunk_id : String
deriving DecidableEq, Repr

/-- Python str.join: `sep.join(parts)`. -/
def joinSep (sep : String) : List String → String
  | [] => ""
  | [x] => x
  | x :: y :: xs => x ++ sep ++ joinSep sep (y :: xs)

/-- Configuration of DocumentProcessor (chunk_size, chunk_overlap, min_chunk_size). -/
structure ChunkCfg where
  chunk_size : Nat
  chunk_overlap : Nat
  min_chunk_size : Nat
deriving DecidableEq, Repr

/-- Construction of one DocumentChunk as in chunk_text (content, metadata,
and the deterministic chunk_id source_page{page}_chunk{index}). -/
def mkChunk (source : String) (page idx : Nat) (content : String) : DocumentChunk :=
  ⟨content,
   ⟨source, page, idx, content.length⟩,
   source ++ "_page" ++ toString page ++ "_chunk" ++ toString idx⟩

/-- Loop state of the sentence-accumulation loop in chunk_text:
current_chunk, current_length, the emitted chunks so far, and chunk_index. -/
structure ChunkState where
  current_chunk : List String
  current_length : Nat
  chunks : List DocumentChunk
  chunk_index : Nat
deriving Repr

/-- One iteration of the `for sentence in sentences` loop of chunk_text
(document_processor.py lines 167-199), translated clause by clause:
if adding the sentence overflows chunk_size and the buffer is non-empty,
the buffer is emitted when it reaches min_chunk_size (incrementing
chunk_index), and both arms of the overlap conditional reseed the buffer
with exactly the triggering sentence; otherwise the sentence is appended
and current_length grows by its length plus one (for the joining space). -/
def chunkStep (cfg : ChunkCfg) (source : String) (page : Nat)
    (st : ChunkState) (sentence : String) : ChunkState :=
  let sl := sentence.length
  if cfg.chunk_size < st.current_length + sl ∧ st.current_chunk ≠ [] then
    let t := joinSep " " st.current_chunk
    let em :=
      if cfg.min_chunk_size ≤ t.length then
        (st.chunks ++ [mkChunk source page st.chunk_index t], st.chunk_index + 1)
      else (st.chunks, st.chunk_index)
    -- overlap handling: `overlap_text = ' '.join(current_chunk)`; both the
    -- `len(overlap_text) > chunk_overlap` arm and its else arm reseed the
    -- buffer with `[sentence]` in the source
    if cfg.chunk_overlap < t.length then
      ⟨[sentence], sl, em.1, em.2⟩
    else
      ⟨[sentence], sl, em.1, em.2⟩
  else
    ⟨st.current_chunk ++ [sentence], st.current_length + sl + 1, st.chunks, st.chunk_index⟩

/-- Processing of one (page_num, page_text) pair in chunk_text: clean the
page text, split it into sentences, fold the accumulation loop starting
from an empty buffer, then emit the trailing buffer when non-empty and at
least min_chunk_size long.  The accumulator carries (emitted chunks,
chunk_index) across pages. -/
def processPage (cfg : ChunkCfg) (clean : String → String)
    (splitS : String → List String) (source : String)
    (acc : List DocumentChunk × Nat) (pg : Nat × String) :
    List DocumentChunk × Nat :=
  let sentences := splitS (clean pg.2)
  let stf := sentences.foldl (chunkStep cfg source pg.1) ⟨[], 0, acc.1, acc.2⟩
  if stf.current_chunk ≠ [] then
    let t := joinSep " " stf.current_chunk
    if cfg.min_chunk_size ≤ t.length then
      (stf.chunks ++ [mkChunk source pg.1 stf.chunk_index t], stf.chunk_index + 1)
    else (stf.chunks, stf.chunk_index)
  else (stf.chunks, stf.chunk_index)

/-- DocumentProcessor.chunk_text.  The `re`-based page-marker split,
clean_text and the sentence split are abstracted as the parameters
splitPages, clean and splitS (see the header); when the page split yields
nothing the whole text is treated as a single page 1, as in the source. -/
def chunk_text (cfg : ChunkCfg) (clean : String → String)
    (splitS : String → List String) (splitPages : String → List (Nat × String))
    (text source : String) : List DocumentChunk :=
  let pcs0 := splitPages text
  let pcs := if pcs0 = [] then [(1, text)] else pcs0
  (pcs.foldl (processPage cfg clean splitS source) ([], 0)).1

/-! ### Vector store (vector_store_manager.py) -/

/-- Squared L2 distance, the metric FAISS IndexFlatL2 reports. -/
def l2sq (u v : Vec) : ℚ :=
  (List.zipWith (fun a b => (a - b) ^ 2) u v).sum

/-- Float-max sentinel FAISS places in the distance array for result slots
it could not fill (index smaller than k); the exact magnitude is
irrelevant to every theorem below. -/
def padDistance : ℚ := 2 ^ 128 - 2 ^ 104

/-- Pair each element with its position, starting at i. -/
def withIdx (i : Nat) : List Vec → List (Nat × Vec)
  | [] => []
  | v :: vs => (i, v) :: withIdx (i + 1) vs

/-- Insert into a list sorted by ascending distance. -/
def insertByDist (p : Int × ℚ) : List (Int × ℚ) → List (Int × ℚ)
  | [] => [p]
  | q :: qs => if p.2 < q.2 then p :: q :: qs else q :: insertByDist p qs

/-- Insertion sort by ascending distance. -/
def sortByDist : List (Int × ℚ) → List (Int × ℚ)
  | [] => []
  | p :: ps => insertByDist p (sortByDist ps)

/-- FAISS IndexFlatL2.search for one query: exhaustive squared-L2 scoring,
ascending-distance ranking, truncation to k, and -1/float-max padding of
the remaining slots when the index holds fewer than k vectors. -/
def faissFlatL2Search (index : List Vec) (q : Vec) (k : Nat) : List (Int × ℚ) :=
  let scored := (withIdx 0 index).map (fun p => ((p.1 : Int), l2sq q p.2))
  let top := (sortByDist scored).take k
  top ++ List.replicate (k - top.length) ((-1 : Int), padDistance)

/-- State of a VectorStoreManager: the FAISS index contents (insertion
order), self.chunks and self.embeddings. -/
structure VectorStore where
  embedding_model : String
  dimension : Nat
  chunks : List DocumentChunk
  embeddings : List Vec
  index : List Vec
deriving DecidableEq, Repr

/-- Junk chunk used to totalise Python list indexing (never reached in the
in-range accesses performed by search). -/
def defaultChunk : DocumentChunk := ⟨"", ⟨"", 0, 0, 0⟩, ""⟩

/-- Python list indexing `chunks[idx]` with an integer index: non-negative
indices read left to right, negative indices wrap from the end
(`chunks[-1]` is the last element). -/
def pyGet (l : List DocumentChunk) (i : Int) : DocumentChunk :=
  if 0 ≤ i then l.getD i.toNat defaultChunk
  else l.getD (l.length - (-i).toNat) defaultChunk

/-- VectorStoreManager.search (lines 189-228): empty-store early return,
query embedding, FAISS search, then the result loop keeping entries with
`idx < len(self.chunks)` and mapping distance d to similarity 1/(1+d). -/
def search (embed : String → Vec) (s : VectorStore) (query : String) (k : Nat) :
    List (DocumentChunk × ℚ) :=
  if s.chunks = [] then []
  else
    let qv := embed query
    (faissFlatL2Search s.index qv k).filterMap fun p =>
      if p.1 < (s.chunks.length : Int) then
        some (pyGet s.chunks p.1, 1 / (1 + p.2))
      else none

/-- Python round(x, 3) modelled over ℚ (mathematical rounding to the
nearest thousandth; float ties-to-even at exact half-thousandths is not
distinguished, and no claim depends on it). -/
def round3 (x : ℚ) : ℚ := (round (x * 1000) : ℤ) / 1000

/-- Source-metadata entry built by get_context_for_query. -/
structure Source where
  source : String
  page : Nat
  similarity : ℚ
deriving DecidableEq, Repr

/-- The source dict appended for each chunk kept by get_context_for_query. -/
def mkSource (c : DocumentChunk) (sim : ℚ) : Source :=
  ⟨c.metadata.source, c.metadata.page, round3 sim⟩

/-- The accumulation loop of get_context_for_query (lines 256-272):
`break` on the first chunk whose content would push current_length over
max_context_length, otherwise record the content and its source entry. -/
def accumContext (maxLen : Nat) :
    List (DocumentChunk × ℚ) → Nat → List String × List Source
  | [], _ => ([], [])
  | (c, sim) :: rest, cur =>
      if maxLen < cur + c.content.length then ([], [])
      else
        let acc := accumContext maxLen rest (cur + c.content.length)
        (c.content :: acc.1, mkSource c sim :: acc.2)

/-- VectorStoreManager.get_context_for_query (lines 230-275): search, the
empty-result early return, the accumulation loop, and the final join with
the fixed seven-character delimiter. -/
def get_context_for_query (embed : String → Vec) (s : VectorStore)
    (query : String) (k maxLen : Nat) : String × List Source :=
  let results := search embed s query k
  if results = [] then ("", [])
  else
    let acc := accumContext maxLen results 0
    (joinSep "\n\n---\n\n" acc.1, acc.2)

/-- Zero vector `[0.0] * dimension` substituted for a failed batch. -/
def zeroVec (dim : Nat) : Vec := List.replicate dim 0

/-- Slicing loop body: m remaining iterations of
`for i in range(0, len(texts), batch_size)`, each taking the next
`texts[i:i+batch_size]` slice. -/
def toBatchesN (bs : Nat) : Nat → List String → List (List String)
  | 0, _ => []
  | m + 1, l => l.take bs :: toBatchesN bs m (l.drop bs)

/-- The `range(0, len(texts), batch_size)` slicing of
create_embeddings_batch: `(n + bs - 1) / bs` is `len(range(0, n, bs))`,
the number of loop iterations.  (Python raises on step 0; the bs = 0 case
is unreachable and yields [].) -/
def toBatches (bs : Nat) (l : List String) : List (List String) :=
  toBatchesN bs ((l.length + bs - 1) / bs) l

/-- Per-batch loop body of create_embeddings_batch: a successful request
yields one embedding per text of the batch in order; a failed request
(flagged by `fails` at the batch ordinal) yields zero-vectors of the
configured dimension, one per text of the batch. -/
def batchResults (embedOne : String → Vec) (fails : Nat → Bool) (dim : Nat) :
    Nat → List (List String) → List Vec
  | _, [] => []
  | i, b :: rest =>
      (if fails i then List.replicate b.length (zeroVec dim) else b.map embedOne)
        ++ batchResults embedOne fails dim (i + 1) rest

/-- VectorStoreManager.create_embeddings_batch (lines 110-142). -/
def create_embeddings_batch (embedOne : String → Vec) (fails : Nat → Bool)
    (dim : Nat) (texts : List String) (bs : Nat) : List Vec :=
  batchResults embedOne fails dim 0 (toBatches bs texts)

/-- VectorStoreManager.add_documents (lines 144-187): the empty early
return, batch embedding of the chunk contents (default batch size 100),
appending the embeddings to the FAISS index, and extending self.chunks and
self.embeddings. -/
def add_documents (embedOne : String → Vec) (fails : Nat → Bool)
    (s : VectorStore) (chunks : List DocumentChunk) : VectorStore :=
  if chunks = [] then s
  else
    let texts := chunks.map (·.content)
    let embs := create_embeddings_batch embedOne fails s.dimension texts 100
    { s with
      index := s.index ++ embs,
      chunks := s.chunks ++ chunks,
      embeddings := s.embeddings ++ embs }

/-- The three artifacts written by VectorStoreManager.save: the serialized
FAISS index, the pickled chunk list, and the metadata JSON. -/
structure StoreArtifacts where
  faiss_index : List Vec
  chunks : List DocumentChunk
  meta_embedding_model : String
  meta_dimension : Nat
  meta_num_chunks : Nat
  meta_num_embeddings : Nat
deriving DecidableEq, Repr

/-- VectorStoreManager.save (lines 277-314), with faiss.write_index and
pickle modelled as exact serialization. -/
def saveStore (s : VectorStore) : StoreArtifacts :=
  ⟨s.index, s.chunks, s.embedding_model, s.dimension,
   s.chunks.length, s.embeddings.length⟩

/-- VectorStoreManager.load (lines 316-351): replaces self.index and
self.chunks from the artifacts; the metadata is only read for the progress
message, and self.embeddings is left untouched by the source. -/
def loadStore (s : VectorStore) (a : StoreArtifacts) : VectorStore :=
  { s with index := a.faiss_index, chunks := a.chunks }

/-- The dictionary returned by DocumentQAAgent.ask; keys absent from a
given return path are modelled as `none`. -/
structure AskResult where
  answer : String
  sources : List Source
  confidence : String
  error : Option String
  context_used : Option Nat
deriving DecidableEq, Repr

/-- One conversation_history entry (the wall-clock timestamp is omitted). -/
structure HistoryEntry where
  question : String
  answer : String
  sources : List Source
deriving DecidableEq, Repr

/-- Agent session state: session_info (documents_loaded, total_chunks,
queries_processed; start_time omitted), conversation_history, and the
owned VectorStoreManager. -/
structure AgentState where
  documents_loaded : List String
  total_chunks : Nat
  queries_processed : Nat
  conversation_history : List HistoryEntry
  vector_store : VectorStore
deriving DecidableEq, Repr

/-- External service calls observable during ask. -/
inductive ExtCall where
  | embedCall (text : String)
  | completionCall (model system user : String)
deriving DecidableEq, Repr

/-- The fixed system prompt of DocumentQAAgent. -/
def system_prompt : String :=
  "You are a helpful AI assistant that answers questions based on provided document context. \n\nYour responsibilities:\n1. Answer questions using ONLY the information from the provided context\n2. If the answer is not in the context, clearly state that you don\x27t have that information\n3. Cite the source document and page when providing answers\n4. Be concise but thorough in your explanations\n5. If the context is ambiguous, acknowledge uncertainty\n\nAlways ground your answers in the provided context and avoid speculation."

/-- DocumentQAAgent._build_qa_prompt. -/
def build_qa_prompt (question context : String) : String :=
  "Based on the following context from the documents, please answer the question.\n\nCONTEXT:\n"
    ++ context
    ++ "\n\nQUESTION: " ++ question
    ++ "\n\nPlease provide a clear, accurate answer based on the context above. If you reference specific information, mention which part of the context it comes from."

/-- The fixed answer of the no-documents short circuit. -/
def noDocumentsAnswer : String :=
  "No documents have been loaded yet. Please load some documents first using the \x27load\x27 command."

/-- The fixed answer of the empty-context short circuit. -/
def noContextAnswer : String :=
  "I couldn\x27t find relevant information in the loaded documents to answer this question."

/-- The literal dictionary returned when no documents are loaded. -/
def noDocumentsResult : AskResult :=
  ⟨noDocumentsAnswer, [], "low", some "no_documents", none⟩

/-- DocumentQAAgent.ask (lines 165-252).  `completion` models one chat
completion request (model, system message, user message) that either
returns an answer or raises; `embed` models the embedding service used by
the vector store.  The result's third component is the trace of external
service calls performed: search embeds the query exactly when the store
has chunks, and one completion call is made exactly when the retrieved
context is non-empty.  On a completion error the except-branch returns
the error-flagged dictionary and the session state is left untouched
(history append and counter increment sit after the completion call
inside the try block). -/
def ask (embed : String → Vec)
    (completion : String → String → String → Except String String)
    (include_sources : Bool) (num_sources : Nat) (model : String)
    (st : AgentState) (question : String) :
    AskResult × AgentState × List ExtCall :=
  if st.documents_loaded = [] then (noDocumentsResult, st, [])
  else
    let pr := get_context_for_query embed st.vector_store question num_sources 4000
    let calls := if st.vector_store.chunks = [] then ([] : List ExtCall)
                 else [ExtCall.embedCall question]
    if pr.1 = "" then
      (⟨noContextAnswer, [], "none", some "no_context", none⟩, st, calls)
    else
      let user := build_qa_prompt question pr.1
      match completion model system_prompt user with
      | Except.error e =>
          (⟨"Error generating answer: " ++ e, [], "error", some e, none⟩, st,
           calls ++ [ExtCall.completionCall model system_prompt user])
      | Except.ok answer =>
          let sources := pr.2
          let avg : ℚ :=
            if sources = [] then 0
            else (sources.map (·.similarity)).sum / (sources.length : ℚ)
          let conf := if (7 : ℚ) / 10 < avg then "high"
                      else if (1 : ℚ) / 2 < avg then "medium" else "low"
          let st2 : AgentState :=
            { st with
              conversation_history :=
                st.conversation_history ++ [⟨question, answer, sources⟩],
              queries_processed := st.queries_processed + 1 }
          (⟨answer, if include_sources then sources else [], conf, none,
             some pr.1.length⟩, st2,
           calls ++ [ExtCall.completionCall model system_prompt user])

/-- DocumentQAAgent.load_vector_store (lines 442-466), success path: the
store's load replaces index and chunks, and session_info only has its
total_chunks updated from get_stats (documents_loaded is not touched). -/
def load_vector_store (st : AgentState) (art : StoreArtifacts) : AgentState :=
  let vs := loadStore st.vector_store art
  { st with vector_store := vs, total_chunks := vs.chunks.length }

/-- A sequence of ask calls threading the session state; collects each
call's result and external-call trace. -/
def askAll (embed : String → Vec)
    (completion : String → String → String → Except String String) :
    AgentState → List String → List (AskResult × List ExtCall) × AgentState
  | st, [] => ([], st)
  | st, q :: qs =>
      let r := ask embed completion true 5 "gpt-4o-mini" st q
      let rest := askAll embed completion r.2.1 qs
      ((r.1, r.2.2) :: rest.1, rest.2)

/-! ### Concrete instances used by counterexamples and witnesses -/

/-- A concrete embedding service: every text embeds to the 1-dimensional
zero vector. -/
def embedC : String → Vec := fun _ => [0]

/-- A concrete chunk as produced by the chunker for a page-1 document. -/
def cA : DocumentChunk := ⟨"abc", ⟨"doc.pdf", 1, 0, 3⟩, "doc.pdf_page1_chunk0"⟩

/-- A freshly constructed VectorStoreManager (dimension 1 for concrete
calculations). -/
def freshStore : VectorStore := ⟨"text-embedding-3-small", 1, [], [], []⟩

/-- The store obtained by adding the single chunk cA to a fresh store with
no batch failures. -/
def storeOne : VectorStore := add_documents embedC (fun _ => false) freshStore [cA]

/-- A completion service that always fails. -/
def completionErr : String → String → String → Except String String :=
  fun _ _ _ => Except.error "boom"

/-- A completion service that always succeeds. -/
def completionOk : String → String → String → Except String String :=
  fun _ _ _ => Except.ok "fine"

/-- A fresh agent session: no documents loaded. -/
def emptyAgent : AgentState := ⟨[], 0, 0, [], freshStore⟩

/-- An agent session with one document loaded into storeOne. -/
def loadedAgent : AgentState := ⟨["doc.pdf"], 1, 0, [], storeOne⟩

/-! ### Helper lemmas -/

/-- The no-documents short circuit of ask: fixed literal result, unchanged
session state, and no external call. -/
theorem ask_docs_empty (embed : String → Vec)
    (completion : String → String → String → Except String String)
    (incl : Bool) (k : Nat) (model : String) (st : AgentState) (q : String)
    (h : st.documents_loaded = []) :
    ask embed completion incl k model st q = (noDocumentsResult, st, []) := by
  simp [ask, h]

/-- Iterating ask over a session with no loaded documents yields the fixed
no-documents result with an empty call trace for every question, and never
changes the state. -/
theorem askAll_docs_empty (embed : String → Vec)
    (completion : String → String → String → Except String String)
    (qs : List String) (st : AgentState) (h : st.documents_loaded = []) :
    (askAll embed completion st qs).1
        = qs.map (fun _ => (noDocumentsResult, ([] : List ExtCall)))
      ∧ (askAll embed completion st qs).2 = st := by
  induction qs generalizing st with
  | nil => simp [askAll]
  | cons q qs ih =>
      simp only [askAll, ask_docs_empty embed completion true 5 "gpt-4o-mini" st q h]
      have h2 := ih st h
      simp [h2.1, h2.2]

/-- Sum of the content lengths of a list of search results. -/
def sumContentLens (l : List (DocumentChunk × ℚ)) : Nat :=
  (l.map (fun p => p.1.content.length)).sum

/-- Length of a Python-style join: the content lengths plus one separator
between consecutive parts. -/
theorem joinSep_length (sep : String) :
    ∀ l : List String,
      (joinSep sep l).length = (l.map String.length).sum + sep.length * (l.length - 1)
  | [] => by simp [joinSep]
  | [x] => by simp [joinSep]
  | x :: y :: t => by
      have ih := joinSep_length sep (y :: t)
      show (x ++ sep ++ joinSep sep (y :: t)).length = _
      rw [String.length_append, String.length_append, ih]
      simp only [List.map_cons, List.sum_cons, List.length_cons, Nat.add_sub_cancel]
      rw [Nat.mul_add, Nat.mul_one]
      omega

/-- Characterization of the accumulation loop of get_context_for_query:
starting from a running total within budget, the loop keeps exactly some
greedy prefix of the ranked results — contents and source entries in
parallel — whose content lengths fit the budget, and it stops exactly
before the first result that would overflow it. -/
theorem accumContext_spec (maxLen : Nat) :
    ∀ (res : List (DocumentChunk × ℚ)) (cur : Nat), cur ≤ maxLen →
      ∃ m, m ≤ res.length
        ∧ (accumContext maxLen res cur).1 = (res.take m).map (fun p => p.1.content)
        ∧ (accumContext maxLen res cur).2 = (res.take m).map (fun p => mkSource p.1 p.2)
        ∧ cur + sumContentLens (res.take m) ≤ maxLen
        ∧ ∀ h : m < res.length,
            maxLen < cur + sumContentLens (res.take m)
              + (res.get ⟨m, h⟩).1.content.length
  | [], cur, hcur => by
      refine ⟨0, by simp, by simp [accumContext], by simp [accumContext], ?_, ?_⟩
      · simpa [sumContentLens] using hcur
      · intro h; exact absurd h (by simp)
  | (c, sim) :: rest, cur, hcur => by
      by_cases hov : maxLen < cur + c.content.length
      · refine ⟨0, by simp, ?_, ?_, ?_, ?_⟩
        · simp [accumContext, if_pos hov]
        · simp [accumContext, if_pos hov]
        · simpa [sumContentLens] using hcur
        · intro _; simpa [sumContentLens] using hov
      · have hcur2 : cur + c.content.length ≤ maxLen := Nat.le_of_not_lt hov
        obtain ⟨m, hm, h1, h2, h3, h4⟩ :=
          accumContext_spec maxLen rest (cur + c.content.length) hcur2
        refine ⟨m + 1, by simpa using hm, ?_, ?_, ?_, ?_⟩
        · simp [accumContext, if_neg hov, h1]
        · simp [accumContext, if_neg hov, h2]
        · simp only [List.take_succ_cons, sumContentLens, List.map_cons, List.sum_cons]
          simp only [sumContentLens] at h3
          omega
        · intro h
          have h' : m < rest.length := by simpa using h
          have := h4 h'
          simp only [List.take_succ_cons, sumContentLens, List.map_cons, List.sum_cons,
            List.get_cons_succ]
          simp only [sumContentLens] at this
          omega

/-- The number of slicing iterations covers the whole text list. -/
theorem le_numBatches_mul (bs n : Nat) (hbs : 0 < bs) :
    n ≤ ((n + bs - 1) / bs) * bs := by
  have hmod : (n + bs - 1) % bs < bs := Nat.mod_lt _ hbs
  have hdm : bs * ((n + bs - 1) / bs) + (n + bs - 1) % bs = n + bs - 1 :=
    Nat.div_add_mod _ _
  rw [Nat.mul_comm]
  omega

/-- batchResults yields one vector per input text: each batch contributes
exactly its size, whether it succeeds or fails. -/
theorem batchResults_length (embedOne : String → Vec) (fails : Nat → Bool)
    (dim bs : Nat) :
    ∀ (m : Nat) (l : List String) (i : Nat), l.length ≤ m * bs →
      (batchResults embedOne fails dim i (toBatchesN bs m l)).length = l.length
  | 0, l, i, h => by
      have : l.length = 0 := Nat.le_zero.mp (by simpa using h)
      simp [toBatchesN, batchResults, this]
  | m + 1, l, i, h => by
      have hrec := batchResults_length embedOne fails dim bs m (l.drop bs) (i + 1)
        (by rw [Nat.succ_mul] at h; simp only [List.length_drop]; omega)
      simp only [toBatchesN, batchResults, List.length_append, hrec]
      cases hf : fails i <;>
        simp [List.length_replicate, List.length_map, List.length_take,
          List.length_drop] <;> omega

/-- create_embeddings_batch returns exactly one vector per input text. -/
theorem create_embeddings_batch_length (embedOne : String → Vec)
    (fails : Nat → Bool) (dim : Nat) (texts : List String) (bs : Nat)
    (hbs : 0 < bs) :
    (create_embeddings_batch embedOne fails dim texts bs).length = texts.length :=
  batchResults_length embedOne fails dim bs _ texts 0
    (le_numBatches_mul bs texts.length hbs)

/-- getD of a replicate list inside its range. -/
theorem getD_replicate_of_lt {α : Type} (n : Nat) (a d : α) (j : Nat) (h : j < n) :
    (List.replicate n a).getD j d = a := by
  simp [List.getD, List.getElem?_replicate, h]

/-- getD of a mapped list inside its range. -/
theorem getD_map_of_lt {α β : Type} (f : α → β) (l : List α) (j : Nat)
    (d : α) (e : β) (h : j < l.length) : (l.map f).getD j e = f (l.getD j d) := by
  simp [List.getD, List.getElem?_map, List.getElem?_eq_getElem h]

/-- Position j of the batched embedding results: texts of a failed batch
(batch ordinal j / bs, offset by the starting ordinal i) become
zero-vectors, all others are embedded individually, in input order. -/
theorem batchResults_getD (embedOne : String → Vec) (fails : Nat → Bool)
    (dim bs : Nat) (hbs : 0 < bs) :
    ∀ (m : Nat) (l : List String) (i j : Nat), j < l.length → l.length ≤ m * bs →
      (batchResults embedOne fails dim i (toBatchesN bs m l)).getD j []
        = if fails (i + j / bs) then zeroVec dim else embedOne (l.getD j "")
  | 0, _, _, _, hjl, hml => by omega
  | m + 1, l, i, j, hjl, hml => by
      have hml' : (l.drop bs).length ≤ m * bs := by
        rw [Nat.succ_mul] at hml; simp only [List.length_drop]; omega
      simp only [toBatchesN, batchResults]
      by_cases hj : j < bs
      · have hd0 : j / bs = 0 := Nat.div_eq_of_lt hj
        have htk : j < (l.take bs).length := by
          simp only [List.length_take]; omega
        have htake : (l.take bs).getD j "" = l.getD j "" := by
          simp [List.getD, List.getElem?_take, hj]
        cases hf : fails i with
        | true =>
            rw [if_pos rfl]
            rw [List.getD_append _ _ _ _ (by simpa using htk)]
            rw [getD_replicate_of_lt _ _ _ _ htk, hd0]
            simp [hf]
        | false =>
            rw [if_neg (by simp)]
            rw [List.getD_append _ _ _ _ (by simpa using htk)]
            rw [getD_map_of_lt embedOne _ _ "" _ htk, htake, hd0]
            simp [hf]
      · have hbsj : bs ≤ j := Nat.le_of_not_lt hj
        have htklen : ∀ b : Bool,
            (if b = true then List.replicate (l.take bs).length (zeroVec dim)
             else (l.take bs).map embedOne).length = bs := by
          intro b
          cases b <;> simp [List.length_take] <;> omega
        have hrec := batchResults_getD embedOne fails dim bs hbs m (l.drop bs)
          (i + 1) (j - bs) (by simp only [List.length_drop]; omega) hml'
        cases hf : fails i with
        | true =>
            rw [if_pos rfl]
            rw [List.getD_append_right _ _ _ _
              (by rw [List.length_replicate, List.length_take]; omega)]
            rw [List.length_replicate, List.length_take]
            have hmin : min bs l.length = bs := by omega
            rw [hmin, hrec]
            have hdiv : (i + 1) + (j - bs) / bs = i + j / bs := by
              have hjeq : (j - bs) + bs = j := by omega
              conv_rhs => rw [← hjeq, Nat.add_div_right _ hbs]
              omega
            have hdrop : (l.drop bs).getD (j - bs) "" = l.getD j "" := by
              have : bs + (j - bs) = j := by omega
              simp [List.getD, List.getElem?_drop, this]
            rw [hdiv, hdrop]
        | false =>
            rw [if_neg (by simp)]
            rw [List.getD_append_right _ _ _ _
              (by rw [List.length_map, List.length_take]; omega)]
            rw [List.length_map, List.length_take]
            have hmin : min bs l.length = bs := by omega
            rw [hmin, hrec]
            have hdiv : (i + 1) + (j - bs) / bs = i + j / bs := by
              have hjeq : (j - bs) + bs = j := by omega
              conv_rhs => rw [← hjeq, Nat.add_div_right _ hbs]
              omega
            have hdrop : (l.drop bs).getD (j - bs) "" = l.getD j "" := by
              have : bs + (j - bs) = j := by omega
              simp [List.getD, List.getElem?_drop, this]
            rw [hdiv, hdrop]

/-- Invariant of the chunker accumulator: every emitted chunk meets
min_chunk_size, the emitted chunk_index values are exactly 0,1,2,... in
emission order, and the running counter equals the number emitted. -/
def chunksGood (minSize : Nat) (p : List DocumentChunk × Nat) : Prop :=
  (∀ c ∈ p.1, minSize ≤ c.content.length)
    ∧ p.1.map (fun c => c.metadata.chunk_index) = List.range p.2
    ∧ p.2 = p.1.length

/-- Emitting one chunk at the current counter preserves the invariant. -/
theorem chunksGood_emit (minSize : Nat) (p : List DocumentChunk × Nat)
    (source : String) (page : Nat) (t : String) (ht : minSize ≤ t.length)
    (h : chunksGood minSize p) :
    chunksGood minSize (p.1 ++ [mkChunk source page p.2 t], p.2 + 1) := by
  obtain ⟨h1, h2, h3⟩ := h
  refine ⟨?_, ?_, ?_⟩
  · intro c hc
    rcases List.mem_append.mp hc with hc | hc
    · exact h1 c hc
    · rcases List.mem_singleton.mp hc with rfl
      exact ht
  · rw [List.map_append, h2, List.range_succ, h3]
    rfl
  · simp [h3]

/-- One step of the sentence loop preserves the invariant. -/
theorem chunkStep_good (cfg : ChunkCfg) (source : String) (page : Nat)
    (st : ChunkState) (sentence : String)
    (h : chunksGood cfg.min_chunk_size (st.chunks, st.chunk_index)) :
    chunksGood cfg.min_chunk_size
      ((chunkStep cfg source page st sentence).chunks,
       (chunkStep cfg source page st sentence).chunk_index) := by
  unfold chunkStep
  by_cases hov : cfg.chunk_size < st.current_length + sentence.length
      ∧ st.current_chunk ≠ []
  · rw [if_pos hov]
    simp only [ite_self]
    by_cases hem : cfg.min_chunk_size ≤ (joinSep " " st.current_chunk).length
    · simpa [if_pos hem] using chunksGood_emit cfg.min_chunk_size
        (st.chunks, st.chunk_index) source page (joinSep " " st.current_chunk) hem h
    · simpa [if_neg hem] using h
  · simpa [if_neg hov] using h

/-- The whole sentence fold preserves the invariant. -/
theorem chunkFold_good (cfg : ChunkCfg) (source : String) (page : Nat) :
    ∀ (sentences : List String) (st : ChunkState),
      chunksGood cfg.min_chunk_size (st.chunks, st.chunk_index) →
      chunksGood cfg.min_chunk_size
        ((sentences.foldl (chunkStep cfg source page) st).chunks,
         (sentences.foldl (chunkStep cfg source page) st).chunk_index)
  | [], _, h => h
  | sentence :: rest, st, h =>
      chunkFold_good cfg source page rest (chunkStep cfg source page st sentence)
        (chunkStep_good cfg source page st sentence h)

/-- processPage preserves the invariant. -/
theorem processPage_good (cfg : ChunkCfg) (clean : String → String)
    (splitS : String → List String) (source : String)
    (acc : List DocumentChunk × Nat) (pg : Nat × String)
    (h : chunksGood cfg.min_chunk_size acc) :
    chunksGood cfg.min_chunk_size (processPage cfg clean splitS source acc pg) := by
  unfold processPage
  have hfold := chunkFold_good cfg source pg.1 (splitS (clean pg.2))
    ⟨[], 0, acc.1, acc.2⟩ (by simpa using h)
  set stf := (splitS (clean pg.2)).foldl (chunkStep cfg source pg.1)
    ⟨[], 0, acc.1, acc.2⟩ with hstf
  by_cases hne : stf.current_chunk ≠ []
  · rw [if_pos hne]
    by_cases hem : cfg.min_chunk_size ≤ (joinSep " " stf.current_chunk).length
    · simpa [if_pos hem] using chunksGood_emit cfg.min_chunk_size
        (stf.chunks, stf.chunk_index) source pg.1 (joinSep " " stf.current_chunk)
        hem hfold
    · simpa [if_neg hem] using hfold
  · simpa [if_neg hne] using hfold

/-- The page fold preserves the invariant. -/
theorem pagesFold_good (cfg : ChunkCfg) (clean : String → String)
    (splitS : String → List String) (source : String) :
    ∀ (pcs : List (Nat × String)) (acc : List DocumentChunk × Nat),
      chunksGood cfg.min_chunk_size acc →
      chunksGood cfg.min_chunk_size
        (pcs.foldl (processPage cfg clean splitS source) acc)
  | [], _, h => h
  | pg :: rest, acc, h =>
      pagesFold_good cfg clean splitS source rest
        (processPage cfg clean splitS source acc pg)
        (processPage_good cfg clean splitS source acc pg h)

/-! ### Claim theorems -/

/-- Claim C1 (code bug witness): on a store holding exactly one chunk, a
search with k = 2 returns two result pairs, not the one stored entry the
spec promises for k exceeding the index size: FAISS pads the missing
result slot with index -1 and a float-max distance, the guard
`idx < len(self.chunks)` accepts -1, and Python negative indexing turns
`chunks[-1]` into the last stored chunk, so the stored chunk is returned
twice (second time with similarity 1/(1+FLT_MAX)). -/
theorem search_pads_duplicate_when_k_exceeds_size :
    storeOne.chunks.length = 1
      ∧ (search embedC storeOne "q" 2).length = 2
      ∧ (search embedC storeOne "q" 2).map Prod.fst = [cA, cA] := by
  decide

/-- Claim C2 (counterexample): the context string returned by
get_context_for_query can be longer than max_context_length, because the
accumulation loop budgets only the chunk contents while the final string
also contains the seven-character delimiter between parts.  Here both
accumulated contents have total length 6 = maxContextLength, yet the
returned context has length 13. -/
theorem get_context_exceeds_budget_with_delimiters :
    6 < (get_context_for_query embedC storeOne "q" 2 6).1.length := by
  decide

/-- Claim C2 (amended): get_context_for_query keeps exactly a greedy
prefix of the ranked search results — one source entry per concatenated
chunk, in parallel — whose total CONTENT length never exceeds
maxContextLength; accumulation stops before the first chunk whose content
would push that total over the limit, keeping the accumulated chunks and
dropping the offender and everything after it untruncated.  The returned
context string is the delimiter-join of those contents, so its full
length is only bounded by maxContextLength plus seven characters per
delimiter. -/
theorem get_context_for_query_greedy_budget (embed : String → Vec)
    (s : VectorStore) (q : String) (k maxLen : Nat) :
    ∃ m, m ≤ (search embed s q k).length
      ∧ (get_context_for_query embed s q k maxLen).2
          = ((search embed s q k).take m).map (fun p => mkSource p.1 p.2)
      ∧ (get_context_for_query embed s q k maxLen).1
          = joinSep "\n\n---\n\n" (((search embed s q k).take m).map (fun p => p.1.content))
      ∧ sumContentLens ((search embed s q k).take m) ≤ maxLen
      ∧ (∀ h : m < (search embed s q k).length,
          maxLen < sumContentLens ((search embed s q k).take m)
            + ((search embed s q k).get ⟨m, h⟩).1.content.length)
      ∧ (get_context_for_query embed s q k maxLen).1.length ≤ maxLen + 7 * (m - 1) := by
  by_cases hres : search embed s q k = []
  · refine ⟨0, by simp, ?_, ?_, ?_, ?_, ?_⟩
    · simp [get_context_for_query, hres, joinSep]
    · simp [get_context_for_query, hres, joinSep]
    · simp [hres, sumContentLens]
    · intro h; rw [hres] at h; exact absurd h (by simp)
    · simp [get_context_for_query, hres, joinSep]
  · obtain ⟨m, hm, h1, h2, h3, h4⟩ :=
      accumContext_spec maxLen (search embed s q k) 0 (Nat.zero_le _)
    refine ⟨m, hm, ?_, ?_, by simpa using h3, by simpa using h4, ?_⟩
    · simp [get_context_for_query, if_neg hres, h2]
    · simp [get_context_for_query, if_neg hres, h1]
    · have hctx : (get_context_for_query embed s q k maxLen).1
          = joinSep "\n\n---\n\n" (((search embed s q k).take m).map (fun p => p.1.content)) := by
        simp [get_context_for_query, if_neg hres, h1]
      rw [hctx, joinSep_length]
      have hlen : (((search embed s q k).take m).map (fun p => p.1.content)).length = m := by
        simp [List.length_take, Nat.min_eq_left hm]
      have hsep : ("\n\n---\n\n" : String).length = 7 := by decide
      have hsum : ((((search embed s q k).take m).map (fun p => p.1.content)).map
          String.length).sum = sumContentLens ((search embed s q k).take m) := by
        simp [sumContentLens, List.map_map, Function.comp_def]
      rw [hlen, hsep, hsum]
      simp only [sumContentLens] at h3 ⊢
      omega

/-- Witness for the amended C2 at a concrete store and budget. -/
theorem get_context_for_query_greedy_budget_witness :
    ∃ m, m ≤ (search embedC storeOne "q" 2).length
      ∧ (get_context_for_query embedC storeOne "q" 2 6).2
          = ((search embedC storeOne "q" 2).take m).map (fun p => mkSource p.1 p.2)
      ∧ (get_context_for_query embedC storeOne "q" 2 6).1
          = joinSep "\n\n---\n\n"
              (((search embedC storeOne "q" 2).take m).map (fun p => p.1.content))
      ∧ sumContentLens ((search embedC storeOne "q" 2).take m) ≤ 6
      ∧ (∀ h : m < (search embedC storeOne "q" 2).length,
          6 < sumContentLens ((search embedC storeOne "q" 2).take m)
            + ((search embedC storeOne "q" 2).get ⟨m, h⟩).1.content.length)
      ∧ (get_context_for_query embedC storeOne "q" 2 6).1.length ≤ 6 + 7 * (m - 1) :=
  get_context_for_query_greedy_budget embedC storeOne "q" 2 6

/-- Claim C4: saving a vector store and loading the artifacts back (into
any manager) yields a store whose search results — chunks, order and
similarities — coincide with the pre-save store's for every query and k,
since search depends only on the FAISS index contents and the chunk list,
both of which the artifacts restore exactly. -/
theorem search_unchanged_after_save_load (embed : String → Vec)
    (s t : VectorStore) (q : String) (k : Nat) :
    search embed (loadStore t (saveStore s)) q k = search embed s q k := rfl

/-- Witness for C4 at a concrete store, target manager, query and k. -/
theorem search_unchanged_after_save_load_witness :
    search embedC (loadStore freshStore (saveStore storeOne)) "q" 3
      = search embedC storeOne "q" 3 :=
  search_unchanged_after_save_load embedC storeOne freshStore "q" 3

/-- Claim C5: ask on a session with zero loaded documents returns the
fixed no-documents dictionary (confidence "low", error "no_documents"),
leaves the state unchanged, and performs no retrieval and no external
embedding or completion call (empty call trace). -/
theorem ask_no_documents_short_circuit (embed : String → Vec)
    (completion : String → String → String → Except String String)
    (incl : Bool) (k : Nat) (model : String) (st : AgentState) (q : String)
    (h : st.documents_loaded = []) :
    ask embed completion incl k model st q = (noDocumentsResult, st, []) :=
  ask_docs_empty embed completion incl k model st q h

/-- Witness for C5 at a concrete fresh session. -/
theorem ask_no_documents_short_circuit_witness :
    ask embedC completionOk true 5 "gpt-4o-mini" emptyAgent "hello"
      = (noDocumentsResult, emptyAgent, []) :=
  ask_no_documents_short_circuit embedC completionOk true 5 "gpt-4o-mini"
    emptyAgent "hello" rfl

/-- Claim C6: create_embeddings_batch returns exactly one vector per input
text in input order; a text belonging to a failed batch (and only such a
text) is assigned the zero-vector of the configured dimension, all others
their individual embedding; and add_documents still appends every chunk
together with exactly these vectors (co-indexed) instead of failing the
call. -/
theorem create_embeddings_batch_degrades_not_aborts (embedOne : String → Vec)
    (fails : Nat → Bool) (dim : Nat) (texts : List String) (bs : Nat)
    (hbs : 0 < bs) :
    (create_embeddings_batch embedOne fails dim texts bs).length = texts.length
      ∧ (∀ j, j < texts.length →
          (create_embeddings_batch embedOne fails dim texts bs).getD j []
            = if fails (j / bs) then zeroVec dim else embedOne (texts.getD j ""))
      ∧ ∀ (s : VectorStore) (cs : List DocumentChunk), cs ≠ [] →
          (add_documents embedOne fails s cs).chunks = s.chunks ++ cs
            ∧ (add_documents embedOne fails s cs).embeddings
                = s.embeddings
                  ++ create_embeddings_batch embedOne fails s.dimension
                      (cs.map (·.content)) 100
            ∧ (add_documents embedOne fails s cs).index
                = s.index
                  ++ create_embeddings_batch embedOne fails s.dimension
                      (cs.map (·.content)) 100 := by
  refine ⟨create_embeddings_batch_length embedOne fails dim texts bs hbs, ?_, ?_⟩
  · intro j hj
    have := batchResults_getD embedOne fails dim bs hbs
      ((texts.length + bs - 1) / bs) texts 0 j hj
      (le_numBatches_mul bs texts.length hbs)
    simpa [create_embeddings_batch] using this
  · intro s cs hcs
    refine ⟨?_, ?_, ?_⟩ <;> simp [add_documents, if_neg hcs]

/-- Witness for C6: three texts in batches of two with the first batch
failing: the first two vectors are zero-vectors of dimension 1, the third
is the text's embedding; a two-chunk add_documents call appends both
chunks. -/
theorem create_embeddings_batch_degrades_not_aborts_witness :
    (create_embeddings_batch embedC (fun b => b = 0) 1 ["t0", "t1", "t2"] 2).length = 3
      ∧ (∀ j, j < (3 : Nat) →
          (create_embeddings_batch embedC (fun b => b = 0) 1 ["t0", "t1", "t2"] 2).getD j []
            = if (fun b => decide (b = 0)) (j / 2) then zeroVec 1
              else embedC (["t0", "t1", "t2"].getD j ""))
      ∧ ∀ (s : VectorStore) (cs : List DocumentChunk), cs ≠ [] →
          (add_documents embedC (fun b => b = 0) s cs).chunks = s.chunks ++ cs
            ∧ (add_documents embedC (fun b => b = 0) s cs).embeddings
                = s.embeddings
                  ++ create_embeddings_batch embedC (fun b => b = 0) s.dimension
                      (cs.map (·.content)) 100
            ∧ (add_documents embedC (fun b => b = 0) s cs).index
                = s.index
                  ++ create_embeddings_batch embedC (fun b => b = 0) s.dimension
                      (cs.map (·.content)) 100 :=
  create_embeddings_batch_degrades_not_aborts embedC (fun b => b = 0) 1
    ["t0", "t1", "t2"] 2 (by decide)

/-- Claim C7: for every input (any page decomposition, cleaning and
sentence split included) every chunk emitted by chunk_text has content
length at least min_chunk_size — short buffers are dropped, never padded
or merged into an emitted chunk — and the chunk_index values are strictly
increasing across the whole document (the counter is threaded through
page boundaries, never reset). -/
theorem chunk_text_min_size_and_strictly_increasing_indices (cfg : ChunkCfg)
    (clean : String → String) (splitS : String → List String)
    (splitPages : String → List (Nat × String)) (text source : String) :
    (∀ c ∈ chunk_text cfg clean splitS splitPages text source,
        cfg.min_chunk_size ≤ c.content.length)
      ∧ ((chunk_text cfg clean splitS splitPages text source).map
          (fun c => c.metadata.chunk_index)).Pairwise (· < ·) := by
  have hgood : chunksGood cfg.min_chunk_size
      ((if splitPages text = [] then [(1, text)] else splitPages text).foldl
        (processPage cfg clean splitS source) ([], 0)) :=
    pagesFold_good cfg clean splitS source _ ([], 0) (by simp [chunksGood])
  obtain ⟨h1, h2, h3⟩ := hgood
  constructor
  · intro c hc
    exact h1 c (by simpa [chunk_text] using hc)
  · have : (chunk_text cfg clean splitS splitPages text source).map
        (fun c => c.metadata.chunk_index) = List.range
          ((if splitPages text = [] then [(1, text)] else splitPages text).foldl
            (processPage cfg clean splitS source) ([], 0)).2 := by
      simpa [chunk_text] using h2
    rw [this]
    exact List.pairwise_lt_range _

/-- Witness for C7 at a concrete configuration and two-page input. -/
theorem chunk_text_min_size_and_strictly_increasing_indices_witness :
    (∀ c ∈ chunk_text ⟨10, 2, 3⟩ (fun s => s) (fun s => [s])
        (fun _ => [(1, "alpha beta. gamma delta."), (2, "second page text here.")])
        "ignored" "doc.pdf",
        (3 : Nat) ≤ c.content.length)
      ∧ ((chunk_text ⟨10, 2, 3⟩ (fun s => s) (fun s => [s])
          (fun _ => [(1, "alpha beta. gamma delta."), (2, "second page text here.")])
          "ignored" "doc.pdf").map
            (fun c => c.metadata.chunk_index)).Pairwise (· < ·) :=
  chunk_text_min_size_and_strictly_increasing_indices ⟨10, 2, 3⟩ (fun s => s)
    (fun s => [s])
    (fun _ => [(1, "alpha beta. gamma delta."), (2, "second page text here.")])
    "ignored" "doc.pdf"

/-- Claim C8: when the running buffer is non-empty and the incoming
sentence would push it past chunk_size, the loop emits the buffer exactly
when it meets min_chunk_size and reseeds the buffer with exactly the
triggering sentence; and the configured chunk_overlap value has no effect
whatsoever on the chunking result (both arms of the overlap conditional
are identical): the overlap is sentence-granular boundary behavior, not
character-count overlap. -/
theorem chunkStep_overflow_seeds_next_and_overlap_unused
    (csz ov₁ ov₂ msz : Nat) (clean : String → String)
    (splitS : String → List String) (splitPages : String → List (Nat × String))
    (text source : String) (page : Nat) (st : ChunkState) (sentence : String)
    (hover : csz < st.current_length + sentence.length)
    (hne : st.current_chunk ≠ []) :
    ((chunkStep ⟨csz, ov₁, msz⟩ source page st sentence).current_chunk = [sentence]
      ∧ (chunkStep ⟨csz, ov₁, msz⟩ source page st sentence).chunks
          = (if msz ≤ (joinSep " " st.current_chunk).length
             then st.chunks
               ++ [mkChunk source page st.chunk_index (joinSep " " st.current_chunk)]
             else st.chunks))
      ∧ chunk_text ⟨csz, ov₁, msz⟩ clean splitS splitPages text source
          = chunk_text ⟨csz, ov₂, msz⟩ clean splitS splitPages text source := by
  have hstep : ∀ ov : Nat, chunkStep ⟨csz, ov, msz⟩ source page st sentence
      = ⟨[sentence], sentence.length,
         (if msz ≤ (joinSep " " st.current_chunk).length
          then st.chunks
            ++ [mkChunk source page st.chunk_index (joinSep " " st.current_chunk)]
          else st.chunks),
         (if msz ≤ (joinSep " " st.current_chunk).length
          then st.chunk_index + 1 else st.chunk_index)⟩ := by
    intro ov
    unfold chunkStep
    rw [if_pos ⟨hover, hne⟩]
    simp only [ite_self]
    by_cases hem : msz ≤ (joinSep " " st.current_chunk).length
    · simp [if_pos hem]
    · simp [if_neg hem]
  refine ⟨⟨?_, ?_⟩, ?_⟩
  · rw [hstep ov₁]
  · rw [hstep ov₁]
  · have hsteps : chunkStep ⟨csz, ov₁, msz⟩ = chunkStep ⟨csz, ov₂, msz⟩ := by
      funext src pg stx sen
      unfold chunkStep
      simp only [ite_self]
    have hpp : processPage ⟨csz, ov₁, msz⟩ clean splitS
        = processPage ⟨csz, ov₂, msz⟩ clean splitS := by
      funext src acc pg
      unfold processPage
      rw [hsteps]
    unfold chunk_text
    rw [hpp]

/-- Witness for C8 at a concrete overflowing state. -/
theorem chunkStep_overflow_seeds_next_and_overlap_unused_witness :
    (((chunkStep ⟨5, 0, 1⟩ "doc.pdf" 1 ⟨["hello"], 5, [], 0⟩ "worlds").current_chunk
        = ["worlds"]
      ∧ (chunkStep ⟨5, 0, 1⟩ "doc.pdf" 1 ⟨["hello"], 5, [], 0⟩ "worlds").chunks
          = (if (1 : Nat) ≤ (joinSep " " ["hello"]).length
             then [] ++ [mkChunk "doc.pdf" 1 0 (joinSep " " ["hello"])]
             else []))
      ∧ chunk_text ⟨5, 0, 1⟩ (fun s => s) (fun s => [s]) (fun _ => [])
          "some text" "doc.pdf"
        = chunk_text ⟨5, 99, 1⟩ (fun s => s) (fun s => [s]) (fun _ => [])
          "some text" "doc.pdf") :=
  chunkStep_overflow_seeds_next_and_overlap_unused 5 0 99 1 (fun s => s)
    (fun s => [s]) (fun _ => []) "some text" "doc.pdf" 1
    ⟨["hello"], 5, [], 0⟩ "worlds" (by decide) (by decide)

/-- Claim C9: with documents loaded and a non-empty retrieved context, a
completion-service error is caught and surfaced as a result whose answer
embeds the error message behind the fixed prefix, whose confidence is
"error" and whose error field carries the message; the session state
(conversation_history, queries_processed and all the rest) is unchanged,
because the history append and counter increment sit after the completion
call inside the try block. -/
theorem ask_completion_error_flagged_state_unchanged (embed : String → Vec)
    (completion : String → String → String → Except String String)
    (incl : Bool) (k : Nat) (model : String) (st : AgentState) (q e : String)
    (hdocs : st.documents_loaded ≠ [])
    (hctx : (get_context_for_query embed st.vector_store q k 4000).1 ≠ "")
    (herr : completion model system_prompt
        (build_qa_prompt q (get_context_for_query embed st.vector_store q k 4000).1)
        = Except.error e) :
    (ask embed completion incl k model st q).1
        = ⟨"Error generating answer: " ++ e, [], "error", some e, none⟩
      ∧ (ask embed completion incl k model st q).2.1 = st := by
  simp only [ask, if_neg hdocs, if_neg hctx, herr]
  simp

/-- Witness for C9 on a one-document session with an always-failing
completion service. -/
theorem ask_completion_error_witness :
    (ask embedC completionErr true 5 "gpt-4o-mini" loadedAgent "q").1
        = ⟨"Error generating answer: " ++ "boom", [], "error", some "boom", none⟩
      ∧ (ask embedC completionErr true 5 "gpt-4o-mini" loadedAgent "q").2.1
        = loadedAgent :=
  ask_completion_error_flagged_state_unchanged embedC completionErr true 5
    "gpt-4o-mini" loadedAgent "q" "boom" (by decide) (by decide) rfl

/-- Claim C10: load_vector_store updates only total_chunks (and the store
itself), never documents_loaded; hence on an agent that never had
load_document called, even after successfully loading artifacts holding
n > 0 chunks, every subsequent ask still short-circuits with the fixed
no-documents response, an empty external-call trace, and no retrieval. -/
theorem ask_still_no_documents_after_load_vector_store (embed : String → Vec)
    (completion : String → String → String → Except String String)
    (st : AgentState) (art : StoreArtifacts) (qs : List String)
    (hdocs : st.documents_loaded = []) (hn : 0 < art.chunks.length) :
    (load_vector_store st art).documents_loaded = []
      ∧ 0 < (load_vector_store st art).vector_store.chunks.length
      ∧ (load_vector_store st art).total_chunks = art.chunks.length
      ∧ (askAll embed completion (load_vector_store st art) qs).1
          = qs.map (fun _ => (noDocumentsResult, ([] : List ExtCall))) := by
  have hd : (load_vector_store st art).documents_loaded = [] := by
    simp [load_vector_store, hdocs]
  refine ⟨hd, ?_, ?_, ?_⟩
  · simpa [load_vector_store, loadStore] using hn
  · simp [load_vector_store, loadStore]
  · exact (askAll_docs_empty embed completion qs _ hd).1

/-- Witness for C10: a fresh agent loads a saved one-chunk store and two
subsequent questions both get the no-documents response. -/
theorem ask_still_no_documents_after_load_vector_store_witness :
    (load_vector_store emptyAgent (saveStore storeOne)).documents_loaded = []
      ∧ 0 < (load_vector_store emptyAgent (saveStore storeOne)).vector_store.chunks.length
      ∧ (load_vector_store emptyAgent (saveStore storeOne)).total_chunks
          = (saveStore storeOne).chunks.length
      ∧ (askAll embedC completionOk (load_vector_store emptyAgent (saveStore storeOne))
            ["q1", "q2"]).1
          = ["q1", "q2"].map (fun _ => (noDocumentsResult, ([] : List ExtCall))) :=
  ask_still_no_documents_after_load_vector_store embedC completionOk emptyAgent
    (saveStore storeOne) ["q1", "q2"] rfl (by decide)

end Day2
